import Mathlib

set_option linter.unusedSectionVars false

/-!  Verification of a Rust reinforcement-learning environment toolkit.

The development shallowly embeds the core of the crate: the deterministic
seeding architecture (src/utils/rng.rs), the parameter-space library
(src/spaces/mod.rs), the physics environments
(src/envs/classic_control/*.rs, src/envs/box2d/lunar_lander.rs) and the
synchronous vector layer (src/vector/mod.rs).

Machine floats (f32) are embedded as elements of an arbitrary linear ordered
field; the transcendental operations sin, cos and the constant pi are
abstracted into a record of operations, so that every theorem proved
generically holds in particular for the faithful instantiation at the real
numbers with Real.sin, Real.cos and Real.pi.  The external pseudo-random
stream (the ChaCha8 generator of the rand_chacha crate, which is not part of
this repository) is modelled as an abstract deterministic stream: a seed and
a draw counter, with a fixed mixing function producing each draw, which
captures exactly the property the crate relies on, namely that the stream is
a deterministic function of its 64-bit seed. -/

namespace Gym

/-- 2 to the 64, the modulus of u64 arithmetic. -/
def M64 : Nat := 2 ^ 64

/-- 2 to the 128, the modulus of u128 arithmetic. -/
def M128 : Nat := 2 ^ 128

/-- Model of the external ChaCha8 RNG stream (type RngStream in
src/utils/rng.rs): an abstract deterministic stream identified by its 64-bit
seed together with the number of draws already consumed. -/
structure RngStream where
  seed : Nat
  count : Nat
deriving DecidableEq

/-- The value of a single raw draw from the modelled stream: an arbitrary but
fixed deterministic mixing of the seed and the draw position. -/
def rngOutput (s c : Nat) : Nat :=
  (s * 6364136223846793005 + c * 1442695040888963407 + 12345) % M64

/-- Draw one raw 64-bit value and advance the stream. -/
def RngStream.draw (r : RngStream) : Nat × RngStream :=
  (rngOutput r.seed r.count, ⟨r.seed, r.count + 1⟩)

/-- rng_from_seed in src/utils/rng.rs: build a fresh stream from a root seed
(ChaCha8Rng::seed_from_u64). -/
def rng_from_seed (s : Nat) : RngStream := ⟨s % M64, 0⟩

/-! ### SeedSequence (src/utils/rng.rs, SplitMix64-style mixer) -/

/-- SeedSequence in src/utils/rng.rs: a 128-bit state used to expand a root
64-bit seed into a stream of sub-seeds. -/
structure SeedSequence where
  state : Nat
deriving DecidableEq

/-- SeedSequence::new: initialize the 128-bit state as the zero-extended
64-bit seed XORed with the SplitMix64 diffusion constant. -/
def SeedSequence.new (seed : Nat) : SeedSequence :=
  ⟨(seed % M64) ^^^ 0x9E3779B97F4A7C15⟩

/-- SeedSequence::next_subseed: one SplitMix64 step operating on the low 64
bits while evolving the 128-bit state, followed by the canonical SplitMix64
finalization; returns the sub-seed and the evolved sequence. -/
def SeedSequence.next_subseed (s : SeedSequence) : Nat × SeedSequence :=
  let z0 := (s.state % M64 + 0x9E3779B97F4A7C15) % M64
  let state1 := ((s.state ^^^ z0) * 0xBF58476D1CE4E5B9) % M128
  let z1 := ((z0 ^^^ (z0 >>> 30)) * 0xBF58476D1CE4E5B9) % M64
  let z2 := ((z1 ^^^ (z1 >>> 27)) * 0x94D049BB133111EB) % M64
  (z2 ^^^ (z2 >>> 31), ⟨state1⟩)

/-- The internal state of the code mixer after k calls to next_subseed. -/
def seedSeqStateAt (seed : Nat) : Nat → SeedSequence
  | 0 => SeedSequence.new seed
  | k + 1 => ((seedSeqStateAt seed k).next_subseed).2

/-- The k-th (0-based) sub-seed produced by the code mixer for a root seed. -/
def subseedAt (seed k : Nat) : Nat := ((seedSeqStateAt seed k).next_subseed).1

/-- Reference computation written from the words of the specification: the
128-bit state starts as the root seed XORed with 0x9E3779B97F4A7C15; each
call takes z as the low 64 bits of the state plus 0x9E3779B97F4A7C15
(wrapping), updates the state to (state XOR z) times 0xBF58476D1CE4E5B9
(wrapping, in 128 bits), and returns the canonical SplitMix64 finalization
of z. -/
def specMixNext (st : Nat) : Nat × Nat :=
  let z := (st % M64 + 0x9E3779B97F4A7C15) % M64
  let st1 := ((st ^^^ z) * 0xBF58476D1CE4E5B9) % M128
  let za := ((z ^^^ (z >>> 30)) * 0xBF58476D1CE4E5B9) % M64
  let zb := ((za ^^^ (za >>> 27)) * 0x94D049BB133111EB) % M64
  (zb ^^^ (zb >>> 31), st1)

/-- The reference 128-bit state after k calls, per the specification. -/
def specMixStateAt (seed : Nat) : Nat → Nat
  | 0 => (seed % M64) ^^^ 0x9E3779B97F4A7C15
  | k + 1 => (specMixNext (specMixStateAt seed k)).2

/-- The k-th sub-seed of the reference computation of the specification. -/
def specSubseedAt (seed k : Nat) : Nat := (specMixNext (specMixStateAt seed k)).1

theorem seedSeqStateAt_eq_spec (seed k : Nat) :
    (seedSeqStateAt seed k).state = specMixStateAt seed k := by
  induction k with
  | zero => rfl
  | succ k ih =>
    simp only [seedSeqStateAt, specMixStateAt, SeedSequence.next_subseed, specMixNext, ih]

/-- C8: for every 64-bit root seed and every call index k, the k-th sub-seed
produced by the seed sequence equals the reference SplitMix64-style
computation described by the specification (diffusion constant
0x9E3779B97F4A7C15, fold-back multiplier 0xBF58476D1CE4E5B9, finalization
constants 0xBF58476D1CE4E5B9 and 0x94D049BB133111EB); the sub-seed sequence
is therefore a deterministic function of the root seed and call count. -/
theorem subseed_matches_spec (seed k : Nat) :
    subseedAt seed k = specSubseedAt seed k := by
  simp only [subseedAt, specSubseedAt, SeedSequence.next_subseed, specMixNext,
    seedSeqStateAt_eq_spec]

/-! ### The float model

The f32 scalars of the crate are embedded into an arbitrary linear ordered
field equipped with a floor structure (needed for the truncating remainder
of the Rust percent operator) and an abstract record of the transcendental
operations used by the environments. -/

/-- The transcendental operations used by the physics environments.  The
faithful instantiation is at the real numbers with Real.sin, Real.cos and
Real.pi; theorems proved for every RealOps hold in particular there. -/
structure RealOps (α : Type) where
  sin : α → α
  cos : α → α
  pi : α

variable {α : Type} [LinearOrderedField α] [FloorRing α]

/-- Truncation toward zero, the rounding used by the remainder of the Rust
percent operator on floats. -/
def rtrunc (x : α) : α := if 0 ≤ x then (⌊x⌋ : ℤ) else (⌈x⌉ : ℤ)

/-- The Rust percent operator on floats: remainder with the sign of the
dividend, a - b * trunc (a / b). -/
def rrem (a b : α) : α := a - b * rtrunc (a / b)

/-- f32::to_radians: multiply by pi / 180. -/
def toRadians (R : RealOps α) (x : α) : α := x * (R.pi / 180)

/-- The shared angle-wrapping formula of pendulum.rs (angle_normalize),
acrobot.rs and lunar_lander.rs: ((x + pi) % (2 pi) + 2 pi) % (2 pi) - pi. -/
def angle_normalize (R : RealOps α) (x : α) : α :=
  rrem (rrem (x + R.pi) (2 * R.pi) + 2 * R.pi) (2 * R.pi) - R.pi

theorem rrem_nonneg_bounds {a b : α} (ha : 0 ≤ a) (hb : 0 < b) :
    0 ≤ rrem a b ∧ rrem a b < b := by
  have hq : 0 ≤ a / b := div_nonneg ha hb.le
  have htr : rtrunc (a / b) = (⌊a / b⌋ : α) := by simp [rtrunc, hq]
  have hfr : rrem a b = b * Int.fract (a / b) := by
    rw [rrem, htr, Int.fract]
    field_simp
  constructor
  · rw [hfr]
    exact mul_nonneg hb.le (Int.fract_nonneg _)
  · rw [hfr]
    calc b * Int.fract (a / b) < b * 1 := by
          exact mul_lt_mul_of_pos_left (Int.fract_lt_one _) hb
    _ = b := mul_one b

theorem rrem_neg_bounds {a b : α} (ha : a < 0) (hb : 0 < b) :
    -b < rrem a b ∧ rrem a b ≤ 0 := by
  have hne : rrem a b = -rrem (-a) b := by
    have hq : a / b < 0 := div_neg_of_neg_of_pos ha hb
    have hq2 : 0 ≤ -a / b := by
      rw [neg_div]
      exact neg_nonneg.mpr hq.le
    have h1 : rtrunc (a / b) = (⌈a / b⌉ : α) := by simp [rtrunc, not_le.mpr hq]
    have h2 : rtrunc (-a / b) = (⌊-a / b⌋ : α) := by simp [rtrunc, hq2]
    rw [rrem, rrem, h1, h2, neg_div, Int.floor_neg, Int.ceil]
    push_cast
    ring
  obtain ⟨h1, h2⟩ := rrem_nonneg_bounds (a := -a) (b := b) (neg_nonneg.mpr ha.le) hb
  constructor
  · rw [hne]
    linarith
  · rw [hne]
    linarith

theorem rrem_abs_bounds (a : α) {b : α} (hb : 0 < b) :
    -b < rrem a b ∧ rrem a b < b := by
  rcases le_or_lt 0 a with ha | ha
  · obtain ⟨h1, h2⟩ := rrem_nonneg_bounds ha hb
    exact ⟨by linarith, h2⟩
  · obtain ⟨h1, h2⟩ := rrem_neg_bounds ha hb
    exact ⟨h1, by linarith⟩

/-- The wrapping formula always lands in the half-open interval from -pi
inclusive to pi exclusive. -/
theorem angle_normalize_mem (R : RealOps α) (hpi : 0 < R.pi) (x : α) :
    -R.pi ≤ angle_normalize R x ∧ angle_normalize R x < R.pi := by
  have h2 : (0 : α) < 2 * R.pi := by linarith
  obtain ⟨hi1, hi2⟩ := rrem_abs_bounds (a := x + R.pi) h2
  have hnn : 0 ≤ rrem (x + R.pi) (2 * R.pi) + 2 * R.pi := by linarith
  obtain ⟨ho1, ho2⟩ := rrem_nonneg_bounds hnn h2
  unfold angle_normalize
  constructor
  · linarith
  · linarith

/-! ### Core result model (src/core.rs) -/

/-- InfoValue in src/core.rs: the value types of the auxiliary info map;
f64 payloads are embedded as rationals. -/
inductive InfoValue where
  | bool (b : Bool)
  | i64 (i : Int)
  | f64 (q : ℚ)
  | str (s : String)
deriving DecidableEq

/-- Info in src/core.rs: an insertion-ordered association list. -/
structure Info where
  entries : List (String × InfoValue)
deriving DecidableEq

/-- Info::new: the empty info map. -/
def Info.new : Info := ⟨[]⟩

/-- Step in src/core.rs: the transition result bundle returned by step. -/
structure Step (α Obs : Type) where
  observation : Obs
  reward : α
  terminated : Bool
  truncated : Bool
  info : Info

/-- Model of the inclusive uniform float sampler of the external rand crate
(Uniform::new_inclusive(lo, hi).sample): a deterministic draw that always
lies between lo and hi when lo is at most hi. -/
def sampleUniform (lo hi : α) (r : RngStream) : α × RngStream :=
  (lo + (hi - lo) * ((r.draw.1 % 1001 : Nat) : α) / 1000, r.draw.2)

/-- Model of the exclusive uniform integer sampler of the external rand
crate (Uniform::from(0..n).sample): a deterministic draw below n. -/
def sampleBelow (n : Nat) (r : RngStream) : Nat × RngStream :=
  (r.draw.1 % n, r.draw.2)

theorem sampleUniform_mem {lo hi : α} (h : lo ≤ hi) (r : RngStream) :
    lo ≤ (sampleUniform lo hi r).1 ∧ (sampleUniform lo hi r).1 ≤ hi := by
  have h0 : (0 : α) ≤ ((r.draw.1 % 1001 : Nat) : α) / 1000 := by positivity
  have h1 : ((r.draw.1 % 1001 : Nat) : α) / 1000 ≤ 1 := by
    rw [div_le_one (by norm_num)]
    have hle : (r.draw.1 % 1001 : Nat) ≤ 1000 :=
      Nat.lt_succ_iff.mp (Nat.mod_lt _ (by norm_num))
    calc ((r.draw.1 % 1001 : Nat) : α) ≤ ((1000 : Nat) : α) := Nat.cast_le.mpr hle
    _ = (1000 : α) := by norm_num
  have hd : 0 ≤ hi - lo := by linarith
  constructor
  · have : 0 ≤ (hi - lo) * (((r.draw.1 % 1001 : Nat) : α) / 1000) :=
      mul_nonneg hd h0
    simp only [sampleUniform, mul_div_assoc]
    linarith
  · have : (hi - lo) * (((r.draw.1 % 1001 : Nat) : α) / 1000) ≤ (hi - lo) * 1 :=
      mul_le_mul_of_nonneg_left h1 hd
    simp only [sampleUniform, mul_div_assoc]
    linarith

theorem sampleBelow_lt {n : Nat} (h : 0 < n) (r : RngStream) :
    (sampleBelow n r).1 < n := Nat.mod_lt _ h

/-! ### CartPole (src/envs/classic_control/cart_pole.rs)

Physics constants are inlined from CartPoleEnv::new: gravity 9.8, masscart
1.0, masspole 0.1, total_mass 1.1, length 0.5 (half pole), polemass_length
0.05, force_mag 10.0, tau 0.02, theta_threshold_radians the radian value of
12 degrees, x_threshold 2.4. -/

/-- The mutable state of CartPoleEnv. -/
structure CartPoleEnv (α : Type) where
  x : α
  x_dot : α
  theta : α
  theta_dot : α
  steps : Nat
  max_episode_steps : Nat
  rng : RngStream

/-- CartPoleEnv::new with the given construction seed (max_episode_steps
500, all state zeroed, stream seeded from the seed). -/
def CartPoleEnv.new (seed : Nat) : CartPoleEnv α :=
  { x := 0, x_dot := 0, theta := 0, theta_dot := 0, steps := 0,
    max_episode_steps := 500, rng := rng_from_seed seed }

/-- CartPoleEnv::reset: optionally reseed the stream, then draw the four
state components uniformly from -0.05 to 0.05 and zero the step counter. -/
def resetCartPole (e : CartPoleEnv α) (seed : Option Nat) :
    CartPoleEnv α × (α × α × α × α) × Info :=
  let r0 := match seed with
    | some s => rng_from_seed s
    | none => e.rng
  let p1 := sampleUniform (-0.05 : α) 0.05 r0
  let p2 := sampleUniform (-0.05 : α) 0.05 p1.2
  let p3 := sampleUniform (-0.05 : α) 0.05 p2.2
  let p4 := sampleUniform (-0.05 : α) 0.05 p3.2
  ({ x := p1.1, x_dot := p2.1, theta := p3.1, theta_dot := p4.1,
     steps := 0, max_episode_steps := e.max_episode_steps, rng := p4.2 },
   (p1.1, p2.1, p3.1, p4.1), Info.new)

/-- The action decoding of CartPoleEnv::step: push right with force 10.0
exactly when the action equals 1, else push left. -/
def cartPoleForce (action : Nat) : α :=
  if action = 1 then 10.0 else -(10.0 : α)

/-- CartPoleEnv::step: force from the action (push right exactly when the
action equals 1, else push left), the classic cart-pole accelerations,
explicit Euler integration with tau 0.02, termination when position or angle
leaves its threshold band, truncation at the step budget, constant reward
1.0. -/
def stepCartPole (R : RealOps α) (e : CartPoleEnv α) (action : Nat) :
    CartPoleEnv α × Step α (α × α × α × α) :=
  let force : α := cartPoleForce action
  let cos_theta := R.cos e.theta
  let sin_theta := R.sin e.theta
  let temp := (force + 0.05 * e.theta_dot ^ 2 * sin_theta) / 1.1
  let theta_acc := (9.8 * sin_theta - cos_theta * temp) /
    (0.5 * (4.0 / 3.0 - 0.1 * cos_theta ^ 2 / 1.1))
  let x_acc := temp - 0.05 * theta_acc * cos_theta / 1.1
  let x1 := e.x + 0.02 * e.x_dot
  let x_dot1 := e.x_dot + 0.02 * x_acc
  let theta1 := e.theta + 0.02 * e.theta_dot
  let theta_dot1 := e.theta_dot + 0.02 * theta_acc
  let steps1 := e.steps + 1
  let tt := toRadians R (12.0 : α)
  let terminated : Bool := decide (x1 < -(2.4 : α)) || decide ((2.4 : α) < x1) ||
    decide (theta1 < -tt) || decide (tt < theta1)
  let truncated : Bool := decide (e.max_episode_steps ≤ steps1)
  ({ x := x1, x_dot := x_dot1, theta := theta1, theta_dot := theta_dot1,
     steps := steps1, max_episode_steps := e.max_episode_steps, rng := e.rng },
   { observation := (x1, x_dot1, theta1, theta_dot1), reward := 1.0,
     terminated := terminated, truncated := truncated, info := Info.new })

/-! ### Pendulum (src/envs/classic_control/pendulum.rs)

Constants inlined from PendulumEnv::new: g 10.0, m 1.0, l 1.0, max_speed
8.0, max_torque 2.0, dt 0.05, max_episode_steps 200. -/

/-- The mutable state of PendulumEnv. -/
structure PendulumEnv (α : Type) where
  theta : α
  theta_dot : α
  max_episode_steps : Nat
  steps : Nat
  rng : RngStream

/-- PendulumEnv::new with the given construction seed. -/
def PendulumEnv.new (seed : Nat) : PendulumEnv α :=
  { theta := 0, theta_dot := 0, max_episode_steps := 200, steps := 0,
    rng := rng_from_seed seed }

/-- The pendulum observation (cos theta, sin theta, theta_dot). -/
def pendulumObs (R : RealOps α) (e : PendulumEnv α) : α × α × α :=
  (R.cos e.theta, R.sin e.theta, e.theta_dot)

/-- PendulumEnv::reset: optionally reseed, draw theta uniformly from -pi to
pi inclusive and theta_dot from -1 to 1, zero the step counter. -/
def resetPendulum (R : RealOps α) (e : PendulumEnv α) (seed : Option Nat) :
    PendulumEnv α × (α × α × α) × Info :=
  let r0 := match seed with
    | some s => rng_from_seed s
    | none => e.rng
  let p1 := sampleUniform (-R.pi) R.pi r0
  let p2 := sampleUniform (-1 : α) 1 p1.2
  let e1 : PendulumEnv α :=
    { theta := p1.1, theta_dot := p2.1, max_episode_steps := e.max_episode_steps,
      steps := 0, rng := p2.2 }
  (e1, pendulumObs R e1, Info.new)

/-- The action decoding of PendulumEnv::step: 0 maps to torque -2.0, 1 to
0.0, any other value to +2.0. -/
def pendulumTorque (action : Nat) : α :=
  match action with
  | 0 => -(2.0 : α)
  | 1 => 0.0
  | _ => 2.0

/-- PendulumEnv::step: torque from the action, Euler update of the angular
velocity with the pendulum acceleration, clamping to plus-minus 8, Euler
update of the angle followed by angle normalization, reward the negated
quadratic cost, no termination, truncation at the step budget. -/
def stepPendulum (R : RealOps α) (e : PendulumEnv α) (action : Nat) :
    PendulumEnv α × Step α (α × α × α) :=
  let torque : α := pendulumTorque action
  let theta_ddot := (3.0 * 10.0 / (2.0 * 1.0)) * R.sin e.theta +
    (3.0 / (1.0 * 1.0 * 1.0)) * torque
  let v1 := e.theta_dot + theta_ddot * 0.05
  let v2 := if (8.0 : α) < v1 then (8.0 : α) else v1
  let v3 := if v2 < -(8.0 : α) then -(8.0 : α) else v2
  let th1 := angle_normalize R (e.theta + v3 * 0.05)
  let steps1 := e.steps + 1
  let theta_norm := angle_normalize R th1
  let cost := theta_norm * theta_norm + 0.1 * v3 * v3 + 0.001 * torque * torque
  let e1 : PendulumEnv α :=
    { theta := th1, theta_dot := v3, max_episode_steps := e.max_episode_steps,
      steps := steps1, rng := e.rng }
  (e1, { observation := pendulumObs R e1, reward := -cost, terminated := false,
         truncated := decide (e.max_episode_steps ≤ steps1), info := Info.new })

/-! ### MountainCar, discrete (src/envs/classic_control/mountain_car.rs)

Constants inlined from MountainCarEnv::new: min_position -1.2, max_position
0.6, max_speed 0.07, goal_position 0.5, force 0.001, gravity 0.0025,
max_episode_steps 200. -/

/-- The mutable state of MountainCarEnv. -/
structure MountainCarEnv (α : Type) where
  position : α
  velocity : α
  max_episode_steps : Nat
  steps : Nat
  rng : RngStream

/-- MountainCarEnv::new with the given construction seed. -/
def MountainCarEnv.new (seed : Nat) : MountainCarEnv α :=
  { position := 0, velocity := 0, max_episode_steps := 200, steps := 0,
    rng := rng_from_seed seed }

/-- MountainCarEnv::reset: optionally reseed, draw the position uniformly
from -0.6 to -0.4, zero the velocity and the step counter. -/
def resetMountainCar (e : MountainCarEnv α) (seed : Option Nat) :
    MountainCarEnv α × (α × α) × Info :=
  let r0 := match seed with
    | some s => rng_from_seed s
    | none => e.rng
  let p1 := sampleUniform (-0.6 : α) (-0.4 : α) r0
  ({ position := p1.1, velocity := 0, max_episode_steps := e.max_episode_steps,
     steps := 0, rng := p1.2 },
   (p1.1, (0 : α)), Info.new)

/-- The action decoding of MountainCarEnv::step: 0 maps to -1.0, 1 to 0.0,
any other value to +1.0. -/
def mountainCarForce (action : Nat) : α :=
  match action with
  | 0 => -(1.0 : α)
  | 1 => 0.0
  | _ => 1.0

/-- MountainCarEnv::step: acceleration from the decoded action scaled by
the force, minus the gravity term; velocity clamped to plus-minus 0.07;
position advanced and clamped to the track; velocity zeroed when pinned at
the left wall moving left; reward -1.0 until the goal, 0.0 on the
terminating step; termination when the position reaches 0.5. -/
def stepMountainCar (R : RealOps α) (e : MountainCarEnv α) (action : Nat) :
    MountainCarEnv α × Step α (α × α) :=
  let action_force : α := mountainCarForce action
  let v1 := e.velocity + (action_force * 0.001 - 0.0025 * R.cos (3.0 * e.position))
  let v2 := if (0.07 : α) < v1 then (0.07 : α) else v1
  let v3 := if v2 < -(0.07 : α) then -(0.07 : α) else v2
  let p1 := e.position + v3
  let p2 := if (0.6 : α) < p1 then (0.6 : α) else p1
  let p3 := if p2 < -(1.2 : α) then -(1.2 : α) else p2
  let v4 := if p3 ≤ -(1.2 : α) ∧ v3 < 0 then (0 : α) else v3
  let steps1 := e.steps + 1
  let terminated : Bool := decide ((0.5 : α) ≤ p3)
  let truncated : Bool := decide (e.max_episode_steps ≤ steps1)
  let reward : α := if terminated then 0.0 else -1.0
  ({ position := p3, velocity := v4, max_episode_steps := e.max_episode_steps,
     steps := steps1, rng := e.rng },
   { observation := (p3, v4), reward := reward, terminated := terminated,
     truncated := truncated, info := Info.new })

/-! ### MountainCarContinuous (src/envs/classic_control/mountain_car_continuous.rs)

Constants inlined from MountainCarContinuousEnv::new: min_position -1.2,
max_position 0.6, max_speed 0.07, goal_position 0.45, power 0.0015, gravity
0.0025, max_episode_steps 999. -/

/-- The mutable state of MountainCarContinuousEnv. -/
structure MountainCarContinuousEnv (α : Type) where
  position : α
  velocity : α
  max_episode_steps : Nat
  steps : Nat
  rng : RngStream

/-- MountainCarContinuousEnv::new with the given construction seed. -/
def MountainCarContinuousEnv.new (seed : Nat) : MountainCarContinuousEnv α :=
  { position := 0, velocity := 0, max_episode_steps := 999, steps := 0,
    rng := rng_from_seed seed }

/-- MountainCarContinuousEnv::reset: optionally reseed, draw the position
uniformly from -0.6 to -0.4, zero the velocity and the step counter. -/
def resetMountainCarContinuous (e : MountainCarContinuousEnv α) (seed : Option Nat) :
    MountainCarContinuousEnv α × (α × α) × Info :=
  let r0 := match seed with
    | some s => rng_from_seed s
    | none => e.rng
  let p1 := sampleUniform (-0.6 : α) (-0.4 : α) r0
  ({ position := p1.1, velocity := 0, max_episode_steps := e.max_episode_steps,
     steps := 0, rng := p1.2 },
   (p1.1, (0 : α)), Info.new)

/-- MountainCarContinuousEnv::step: the scalar action clipped to plus-minus
1, scaled by the power; the same track dynamics as the discrete variant with
goal 0.45; reward -0.1 times the squared clipped action, plus 100 on the
terminating step. -/
def stepMountainCarContinuous (R : RealOps α) (e : MountainCarContinuousEnv α)
    (action : α) : MountainCarContinuousEnv α × Step α (α × α) :=
  let a := if action < -(1.0 : α) then -(1.0 : α)
    else if (1.0 : α) < action then (1.0 : α) else action
  let v1 := e.velocity + (a * 0.0015 - 0.0025 * R.cos (3.0 * e.position))
  let v2 := if (0.07 : α) < v1 then (0.07 : α) else v1
  let v3 := if v2 < -(0.07 : α) then -(0.07 : α) else v2
  let p1 := e.position + v3
  let p2 := if (0.6 : α) < p1 then (0.6 : α) else p1
  let p3 := if p2 < -(1.2 : α) then -(1.2 : α) else p2
  let v4 := if p3 ≤ -(1.2 : α) ∧ v3 < 0 then (0 : α) else v3
  let steps1 := e.steps + 1
  let terminated : Bool := decide ((0.45 : α) ≤ p3)
  let truncated : Bool := decide (e.max_episode_steps ≤ steps1)
  let reward : α := if terminated then -0.1 * a * a + 100.0 else -0.1 * a * a
  ({ position := p3, velocity := v4, max_episode_steps := e.max_episode_steps,
     steps := steps1, rng := e.rng },
   { observation := (p3, v4), reward := reward, terminated := terminated,
     truncated := truncated, info := Info.new })

/-! ### Acrobot (src/envs/classic_control/acrobot.rs)

Constants inlined from AcrobotEnv::new: m1 1.0, m2 1.0, l1 1.0, l2 1.0,
lc1 0.5, lc2 0.5, I1 1.0, I2 1.0, g 9.8, dt 0.2, max_vel_1 four pi,
max_vel_2 nine pi, max_episode_steps 500. -/

/-- The mutable state of AcrobotEnv. -/
structure AcrobotEnv (α : Type) where
  th1 : α
  th2 : α
  dth1 : α
  dth2 : α
  steps : Nat
  max_episode_steps : Nat
  rng : RngStream

/-- AcrobotEnv::new with the given construction seed. -/
def AcrobotEnv.new (seed : Nat) : AcrobotEnv α :=
  { th1 := 0, th2 := 0, dth1 := 0, dth2 := 0, steps := 0,
    max_episode_steps := 500, rng := rng_from_seed seed }

/-- AcrobotEnv::dynamics: the coupled double-pendulum angular accelerations,
with the constants of new inlined. -/
def acrobotDynamics (R : RealOps α) (th1 th2 dth1 dth2 torque : α) : α × α :=
  let d1 := 1.0 * (0.5 * 0.5) +
    1.0 * (1.0 * 1.0 + 0.5 * 0.5 + 2.0 * 1.0 * 0.5 * R.cos th2) + 1.0 + 1.0
  let d2 := 1.0 * (0.5 * 0.5 + 1.0 * 0.5 * R.cos th2) + 1.0
  let phi2 := 1.0 * 0.5 * 9.8 * R.cos (th1 + th2 - R.pi / 2)
  let phi1 := -(1.0 : α) * 1.0 * 0.5 * dth2 * dth2 * R.sin th2 -
    2.0 * 1.0 * 1.0 * 0.5 * dth2 * dth1 * R.sin th2 +
    (1.0 * 0.5 + 1.0 * 1.0) * 9.8 * R.cos (th1 - R.pi / 2) + phi2
  let ddth2 := (torque + d2 / d1 * phi1 -
    1.0 * 1.0 * 0.5 * dth1 * dth1 * R.sin th2 - phi2) /
    (1.0 * 0.5 * 0.5 + 1.0 - d2 * d2 / d1)
  let ddth1 := -(d2 * ddth2 + phi1) / d1
  (ddth1, ddth2)

/-- AcrobotEnv::reset: optionally reseed, draw both angles uniformly from
-pi to pi inclusive and both angular velocities from -0.1 to 0.1, zero the
step counter. -/
def resetAcrobot (R : RealOps α) (e : AcrobotEnv α) (seed : Option Nat) :
    AcrobotEnv α × (α × α × α × α) × Info :=
  let r0 := match seed with
    | some s => rng_from_seed s
    | none => e.rng
  let p1 := sampleUniform (-R.pi) R.pi r0
  let p2 := sampleUniform (-R.pi) R.pi p1.2
  let p3 := sampleUniform (-0.1 : α) 0.1 p2.2
  let p4 := sampleUniform (-0.1 : α) 0.1 p3.2
  ({ th1 := p1.1, th2 := p2.1, dth1 := p3.1, dth2 := p4.1, steps := 0,
     max_episode_steps := e.max_episode_steps, rng := p4.2 },
   (p1.1, p2.1, p3.1, p4.1), Info.new)

/-- The action decoding of AcrobotEnv::step: 0 maps to torque -1.0, 1 to
0.0, any other value to +1.0. -/
def acrobotTorque (action : Nat) : α :=
  match action with
  | 0 => -(1.0 : α)
  | 1 => 0.0
  | _ => 1.0

/-- AcrobotEnv::step: torque from the decoded action, a fourth-order
Runge-Kutta update with dt 0.2, angle wrapping, velocity clamping to
plus-minus four pi and nine pi, reward -1.0 until the terminal height, 0.0
on the terminating step. -/
def stepAcrobot (R : RealOps α) (e : AcrobotEnv α) (action : Nat) :
    AcrobotEnv α × Step α (α × α × α × α) :=
  let torque : α := acrobotTorque action
  let dt : α := 0.2
  let k1_1 := e.dth1
  let k1_2 := e.dth2
  let a1 := acrobotDynamics R e.th1 e.th2 e.dth1 e.dth2 torque
  let th1_2 := e.th1 + 0.5 * dt * k1_1
  let th2_2 := e.th2 + 0.5 * dt * k1_2
  let dth1_2 := e.dth1 + 0.5 * dt * a1.1
  let dth2_2 := e.dth2 + 0.5 * dt * a1.2
  let a2 := acrobotDynamics R th1_2 th2_2 dth1_2 dth2_2 torque
  let th1_3 := e.th1 + 0.5 * dt * dth1_2
  let th2_3 := e.th2 + 0.5 * dt * dth2_2
  let dth1_3 := e.dth1 + 0.5 * dt * a2.1
  let dth2_3 := e.dth2 + 0.5 * dt * a2.2
  let a3 := acrobotDynamics R th1_3 th2_3 dth1_3 dth2_3 torque
  let th1_4 := e.th1 + dt * dth1_3
  let th2_4 := e.th2 + dt * dth2_3
  let dth1_4 := e.dth1 + dt * a3.1
  let dth2_4 := e.dth2 + dt * a3.2
  let a4 := acrobotDynamics R th1_4 th2_4 dth1_4 dth2_4 torque
  let th1_n := angle_normalize R
    (e.th1 + dt * (k1_1 + 2.0 * dth1_2 + 2.0 * dth1_3 + dth1_4) / 6.0)
  let th2_n := angle_normalize R
    (e.th2 + dt * (k1_2 + 2.0 * dth2_2 + 2.0 * dth2_3 + dth2_4) / 6.0)
  let dth1_n0 := e.dth1 + dt * (a1.1 + 2.0 * a2.1 + 2.0 * a3.1 + a4.1) / 6.0
  let dth2_n0 := e.dth2 + dt * (a1.2 + 2.0 * a2.2 + 2.0 * a3.2 + a4.2) / 6.0
  let dth1_n1 := if 4.0 * R.pi < dth1_n0 then 4.0 * R.pi else dth1_n0
  let dth1_n := if dth1_n1 < -(4.0 * R.pi) then -(4.0 * R.pi) else dth1_n1
  let dth2_n1 := if 9.0 * R.pi < dth2_n0 then 9.0 * R.pi else dth2_n0
  let dth2_n := if dth2_n1 < -(9.0 * R.pi) then -(9.0 * R.pi) else dth2_n1
  let steps1 := e.steps + 1
  let terminated : Bool :=
    decide ((1.0 : α) ≤ -R.cos th1_n - R.cos (th1_n + th2_n))
  let truncated : Bool := decide (e.max_episode_steps ≤ steps1)
  let reward : α := if terminated then 0.0 else -1.0
  ({ th1 := th1_n, th2 := th2_n, dth1 := dth1_n, dth2 := dth2_n,
     steps := steps1, max_episode_steps := e.max_episode_steps, rng := e.rng },
   { observation := (th1_n, th2_n, dth1_n, dth2_n), reward := reward,
     terminated := terminated, truncated := truncated, info := Info.new })

/-! ### LunarLander (src/envs/box2d/lunar_lander.rs)

Constants inlined from LunarLanderEnv::new: gravity 0.6, main_thrust 1.2,
side_thrust 0.6, ang_damp 0.15, lin_damp 0.02, dt 0.05, x_limit 1.2,
y_limit 1.5, pad_half_width 0.2, max_episode_steps 1000. -/

/-- The mutable state of LunarLanderEnv. -/
structure LunarLanderEnv (α : Type) where
  x : α
  y : α
  vx : α
  vy : α
  angle : α
  vang : α
  left_contact : Bool
  right_contact : Bool
  steps : Nat
  max_episode_steps : Nat
  rng : RngStream

/-- LunarLanderEnv::new with the given construction seed. -/
def LunarLanderEnv.new (seed : Nat) : LunarLanderEnv α :=
  { x := 0, y := 1.0, vx := 0, vy := 0, angle := 0, vang := 0,
    left_contact := false, right_contact := false, steps := 0,
    max_episode_steps := 1000, rng := rng_from_seed seed }

/-- The lunar-lander observation vector. -/
def lunarObs (s : LunarLanderEnv α) : α × α × α × α × α × α × α × α :=
  (s.x, s.y, s.vx, s.vy, s.angle, s.vang,
   if s.left_contact then 1.0 else 0.0,
   if s.right_contact then 1.0 else 0.0)

/-- LunarLanderEnv::landed_success: on the ground with small speeds, near
upright and within the pad. -/
def lunarLanded (s : LunarLanderEnv α) : Bool :=
  decide (s.y ≤ 0) && decide (|s.vy| < 0.3) && decide (|s.vx| < 0.3) &&
    decide (|s.angle| < 0.2) && decide (|s.x| ≤ 0.2)

/-- LunarLanderEnv::crashed: below ground with high vertical speed or tilt,
or out of bounds. -/
def lunarCrashed (s : LunarLanderEnv α) : Bool :=
  (decide (s.y ≤ 0) && (decide ((0.6 : α) ≤ |s.vy|) || decide ((0.4 : α) ≤ |s.angle|))) ||
    decide ((1.2 : α) < |s.x|) || decide ((1.5 : α) < s.y) || decide (s.y < -(0.2 : α))

/-- LunarLanderEnv::apply_action: accelerations of the main and side
engines, applied to a state whose gravity update has already happened. -/
def lunarApplyAction (R : RealOps α) (s : LunarLanderEnv α) (action : Nat) :
    LunarLanderEnv α :=
  let s1 := if action = 2 then
      { s with vx := s.vx + (-R.sin s.angle * 1.2) * 0.05,
               vy := s.vy + (R.cos s.angle * 1.2) * 0.05 }
    else s
  let s2 := if action = 1 then
      { s1 with vx := s1.vx + 0.6 * 0.05, vang := s1.vang - 1.5 * 0.6 * 0.05 }
    else s1
  if action = 3 then
    { s2 with vx := s2.vx - 0.6 * 0.05, vang := s2.vang + 1.5 * 0.6 * 0.05 }
  else s2

/-- The physics-integration phase of LunarLanderEnv::step, up to and
including the angle wrap: gravity, engine accelerations for the action
capped at 3, damping, Euler integration. -/
def lunarIntegrate (R : RealOps α) (s : LunarLanderEnv α) (action : Nat) :
    LunarLanderEnv α :=
  let s0 := { s with vy := s.vy - 0.6 * 0.05 }
  let s1 := lunarApplyAction R s0 (min action 3)
  let s2 := { s1 with vx := s1.vx * (1.0 - 0.02),
                      vy := s1.vy * (1.0 - 0.02 * 0.5),
                      vang := s1.vang * (1.0 - 0.15) }
  let s3 := { s2 with x := s2.x + s2.vx * 0.05, y := s2.y + s2.vy * 0.05,
                      angle := s2.angle + s2.vang * 0.05 }
  { s3 with angle := angle_normalize R s3.angle }

/-- The ground-collision phase of LunarLanderEnv::step: contacts recomputed
and, at or below the ground, altitude and vertical velocity zeroed. -/
def lunarCollide (s : LunarLanderEnv α) : LunarLanderEnv α :=
  if s.y ≤ 0 then
    { s with left_contact := decide (|s.x - 0.05| ≤ 0.2),
             right_contact := decide (|s.x + 0.05| ≤ 0.2),
             y := 0, vy := 0 }
  else
    { s with left_contact := false, right_contact := false }

/-- LunarLanderEnv::step: integration, ground collision, termination as
landed or crashed, truncation at the step budget, shaped reward with the
success and crash bonuses. -/
def stepLunar (R : RealOps α) (s : LunarLanderEnv α) (action : Nat) :
    LunarLanderEnv α × Step α (α × α × α × α × α × α × α × α) :=
  let sc := lunarCollide (lunarIntegrate R s action)
  let steps1 := s.steps + 1
  let terminated : Bool := lunarLanded sc || lunarCrashed sc
  let truncated : Bool := decide (s.max_episode_steps ≤ steps1)
  let r1 : α := 0.0 - |sc.x / 1.2| * 0.5 - (|sc.vx| + |sc.vy|) * 0.1 - |sc.angle| * 0.2
  let r2 : α := if lunarLanded sc then r1 + 100.0 else r1
  let r3 : α := if lunarCrashed sc then r2 - 100.0 else r2
  let s1 := { sc with steps := steps1 }
  (s1, { observation := lunarObs s1, reward := r3, terminated := terminated,
         truncated := truncated, info := Info.new })

/-- LunarLanderEnv::reset: optionally reseed, draw the horizontal position
uniformly from -0.05 to 0.05 and the angle from -0.1 to 0.1, start at
altitude 1.2 at rest with no contacts, zero the step counter. -/
def resetLunar (e : LunarLanderEnv α) (seed : Option Nat) :
    LunarLanderEnv α × (α × α × α × α × α × α × α × α) × Info :=
  let r0 := match seed with
    | some s => rng_from_seed s
    | none => e.rng
  let p1 := sampleUniform (-0.05 : α) 0.05 r0
  let p2 := sampleUniform (-0.1 : α) 0.1 p1.2
  let e1 : LunarLanderEnv α :=
    { x := p1.1, y := 1.2, vx := 0, vy := 0, angle := p2.1, vang := 0,
      left_contact := false, right_contact := false, steps := 0,
      max_episode_steps := e.max_episode_steps, rng := p2.2 }
  (e1, lunarObs e1, Info.new)

/-! ### The environment contract and the vector layer (src/core.rs,
src/vector/mod.rs)

The Env trait is embedded as a record of a reset and a step function over an
abstract state type; a mutating method becomes a function returning the new
state alongside its result. -/

/-- The Env trait of src/core.rs, over a state type sigma with observation
and action types. -/
structure EnvI (α σ Obs Act : Type) where
  reset : σ → Option Nat → σ × Obs × Info
  step : σ → Act → σ × Step α Obs

/-- SyncVectorEnv of src/vector/mod.rs: N homogeneous member environments. -/
structure SyncVectorEnv (σ : Type) where
  envs : List σ

/-- SyncVectorEnv::reset_all: member i is reset with base_seed + i when a
base seed is given, and with no seed otherwise; results in index order. -/
def reset_all {σ Obs Act : Type} (E : EnvI α σ Obs Act) (v : SyncVectorEnv σ)
    (base_seed : Option Nat) : SyncVectorEnv σ × List (Obs × Info) :=
  let rs := v.envs.mapIdx fun i e => E.reset e (base_seed.map fun s => s + i)
  (⟨rs.map Prod.fst⟩, rs.map Prod.snd)

/-- SyncVectorEnv::step_all: the assert_eq on the batch size is modelled as
the none case (a fatal precondition violation, not a recoverable value);
otherwise member i is stepped with action i, results in index order. -/
def step_all {σ Obs Act : Type} (E : EnvI α σ Obs Act) (v : SyncVectorEnv σ)
    (actions : List Act) : Option (SyncVectorEnv σ × List (Step α Obs)) :=
  if actions.length = v.envs.length then
    let rs := List.zipWith (fun e a => E.step e a) v.envs actions
    some (⟨rs.map Prod.fst⟩, rs.map Prod.snd)
  else
    none

/-- Run a standalone environment through a list of actions, collecting the
transition results. -/
def runEnv {σ Obs Act : Type} (E : EnvI α σ Obs Act) :
    σ → List Act → List (Step α Obs)
  | _, [] => []
  | s, a :: rest => (E.step s a).2 :: runEnv E (E.step s a).1 rest

/-- Run a vector environment through a list of action batches, collecting
the batched transition results; none as soon as one batch size mismatches. -/
def runVec {σ Obs Act : Type} (E : EnvI α σ Obs Act) :
    SyncVectorEnv σ → List (List Act) → Option (List (List (Step α Obs)))
  | _, [] => some []
  | v, as :: rest =>
    match step_all E v as with
    | none => none
    | some p => (runVec E p.1 rest).map fun t => p.2 :: t

/-! ### Parameter spaces (src/spaces/mod.rs) -/

/-- The Discrete space: integers below n. -/
structure Discrete where
  n : Nat
deriving DecidableEq

/-- Discrete::sample: always 0 when n is 1 (without consuming the stream),
else a uniform draw below n. -/
def Discrete.sample (d : Discrete) (r : RngStream) : Nat × RngStream :=
  if d.n = 1 then (0, r) else sampleBelow d.n r

/-- Discrete::contains: membership below n. -/
def Discrete.contains (d : Discrete) (e : Nat) : Bool := decide (e < d.n)

/-- The MultiBinary space: length-n bit vectors. -/
structure MultiBinary where
  n : Nat
deriving DecidableEq

/-- The sampling loop of MultiBinary::sample: one uniform draw over 0 and 1
per position, in index order. -/
def multiBinarySampleGo : Nat → RngStream → List Nat × RngStream
  | 0, r => ([], r)
  | k + 1, r =>
    let p := (r.draw.1 % 2, r.draw.2)
    let q := multiBinarySampleGo k p.2
    (p.1 :: q.1, q.2)

/-- MultiBinary::sample. -/
def MultiBinary.sample (m : MultiBinary) (r : RngStream) : List Nat × RngStream :=
  multiBinarySampleGo m.n r

/-- MultiBinary::contains: the length matches and every entry is 0 or 1. -/
def MultiBinary.contains (m : MultiBinary) (e : List Nat) : Bool :=
  decide (e.length = m.n) && e.all fun v => decide (v = 0) || decide (v = 1)

/-- The MultiDiscrete space: one bound per dimension. -/
structure MultiDiscrete where
  nvec : List Nat
deriving DecidableEq

/-- The sampling loop of MultiDiscrete::sample: a dimension with bound 1
always yields 0 without consuming the stream, else a uniform draw below the
bound. -/
def multiDiscreteSampleGo : List Nat → RngStream → List Nat × RngStream
  | [], r => ([], r)
  | n :: rest, r =>
    if n = 1 then
      let q := multiDiscreteSampleGo rest r
      (0 :: q.1, q.2)
    else
      let p := sampleBelow n r
      let q := multiDiscreteSampleGo rest p.2
      (p.1 :: q.1, q.2)

/-- MultiDiscrete::sample. -/
def MultiDiscrete.sample (m : MultiDiscrete) (r : RngStream) :
    List Nat × RngStream :=
  multiDiscreteSampleGo m.nvec r

/-- MultiDiscrete::contains: the length matches and every entry is below its
per-dimension bound. -/
def MultiDiscrete.contains (m : MultiDiscrete) (e : List Nat) : Bool :=
  decide (e.length = m.nvec.length) &&
    (e.zip m.nvec).all fun p => decide (p.1 < p.2)

/-- The BoxSpace: per-dimension inclusive bounds.  The Rust element type is
a fixed-length array, so lengths agree by construction; the embedding uses
lists with the length agreement stated where needed. -/
structure BoxSpace (α : Type) where
  low : List α
  high : List α

/-- The sampling loop of BoxSpace::sample: one inclusive uniform draw per
dimension, in index order. -/
def boxSampleGo : List (α × α) → RngStream → List α × RngStream
  | [], r => ([], r)
  | b :: rest, r =>
    let p := sampleUniform b.1 b.2 r
    let q := boxSampleGo rest p.2
    (p.1 :: q.1, q.2)

/-- BoxSpace::sample. -/
def boxSample (b : BoxSpace α) (r : RngStream) : List α × RngStream :=
  boxSampleGo (b.low.zip b.high) r

/-- BoxSpace::contains: every coordinate lies within its closed bounds
(the element length is fixed by the Rust array type). -/
def boxContains (b : BoxSpace α) (e : List α) : Bool :=
  ((b.low.zip b.high).zip e).all fun p =>
    decide (p.1.1 ≤ p.2) && decide (p.2 ≤ p.1.2)

/-! ### Episode runs of the concrete environments -/

/-- Run the cart-pole through an action sequence, collecting every
transition result. -/
def runCartPole (R : RealOps α) : CartPoleEnv α → List Nat → List (Step α (α × α × α × α))
  | _, [] => []
  | e, a :: rest => (stepCartPole R e a).2 :: runCartPole R (stepCartPole R e a).1 rest

/-- Run the pendulum through an action sequence. -/
def runPendulum (R : RealOps α) : PendulumEnv α → List Nat → List (Step α (α × α × α))
  | _, [] => []
  | e, a :: rest => (stepPendulum R e a).2 :: runPendulum R (stepPendulum R e a).1 rest

/-- Run the discrete mountain car through an action sequence. -/
def runMountainCar (R : RealOps α) : MountainCarEnv α → List Nat → List (Step α (α × α))
  | _, [] => []
  | e, a :: rest => (stepMountainCar R e a).2 :: runMountainCar R (stepMountainCar R e a).1 rest

/-- Run the continuous mountain car through an action sequence. -/
def runMountainCarContinuous (R : RealOps α) :
    MountainCarContinuousEnv α → List α → List (Step α (α × α))
  | _, [] => []
  | e, a :: rest => (stepMountainCarContinuous R e a).2 ::
      runMountainCarContinuous R (stepMountainCarContinuous R e a).1 rest

/-- Run the acrobot through an action sequence. -/
def runAcrobot (R : RealOps α) : AcrobotEnv α → List Nat → List (Step α (α × α × α × α))
  | _, [] => []
  | e, a :: rest => (stepAcrobot R e a).2 :: runAcrobot R (stepAcrobot R e a).1 rest

/-- Run the lunar lander through an action sequence. -/
def runLunar (R : RealOps α) :
    LunarLanderEnv α → List Nat → List (Step α (α × α × α × α × α × α × α × α))
  | _, [] => []
  | e, a :: rest => (stepLunar R e a).2 :: runLunar R (stepLunar R e a).1 rest

/-- C1: for every physics environment, every seed and every finite action
sequence, resetting with that seed and stepping through the sequence on two
instances with the same step budget yields identical reset observations and
identical transition-result sequences (observations, rewards, terminated and
truncated flags all equal, so in particular rewards agree within any
tolerance).  The instances may differ arbitrarily in prior state and
construction seed. -/
theorem reset_seed_determinism (R : RealOps α) :
    (∀ e1 e2 : CartPoleEnv α, e1.max_episode_steps = e2.max_episode_steps →
      ∀ (s : Nat) (as : List Nat),
        (resetCartPole e1 (some s)).2 = (resetCartPole e2 (some s)).2 ∧
        runCartPole R (resetCartPole e1 (some s)).1 as =
          runCartPole R (resetCartPole e2 (some s)).1 as) ∧
    (∀ e1 e2 : PendulumEnv α, e1.max_episode_steps = e2.max_episode_steps →
      ∀ (s : Nat) (as : List Nat),
        (resetPendulum R e1 (some s)).2 = (resetPendulum R e2 (some s)).2 ∧
        runPendulum R (resetPendulum R e1 (some s)).1 as =
          runPendulum R (resetPendulum R e2 (some s)).1 as) ∧
    (∀ e1 e2 : MountainCarEnv α, e1.max_episode_steps = e2.max_episode_steps →
      ∀ (s : Nat) (as : List Nat),
        (resetMountainCar e1 (some s)).2 = (resetMountainCar e2 (some s)).2 ∧
        runMountainCar R (resetMountainCar e1 (some s)).1 as =
          runMountainCar R (resetMountainCar e2 (some s)).1 as) ∧
    (∀ e1 e2 : MountainCarContinuousEnv α, e1.max_episode_steps = e2.max_episode_steps →
      ∀ (s : Nat) (as : List α),
        (resetMountainCarContinuous e1 (some s)).2 =
          (resetMountainCarContinuous e2 (some s)).2 ∧
        runMountainCarContinuous R (resetMountainCarContinuous e1 (some s)).1 as =
          runMountainCarContinuous R (resetMountainCarContinuous e2 (some s)).1 as) ∧
    (∀ e1 e2 : AcrobotEnv α, e1.max_episode_steps = e2.max_episode_steps →
      ∀ (s : Nat) (as : List Nat),
        (resetAcrobot R e1 (some s)).2 = (resetAcrobot R e2 (some s)).2 ∧
        runAcrobot R (resetAcrobot R e1 (some s)).1 as =
          runAcrobot R (resetAcrobot R e2 (some s)).1 as) ∧
    (∀ e1 e2 : LunarLanderEnv α, e1.max_episode_steps = e2.max_episode_steps →
      ∀ (s : Nat) (as : List Nat),
        (resetLunar e1 (some s)).2 = (resetLunar e2 (some s)).2 ∧
        runLunar R (resetLunar e1 (some s)).1 as =
          runLunar R (resetLunar e2 (some s)).1 as) := by
  refine ⟨?_, ?_, ?_, ?_, ?_, ?_⟩
  · intro e1 e2 h s as
    have key : resetCartPole (α := α) e1 (some s) = resetCartPole e2 (some s) := by
      simp only [resetCartPole]
      rw [h]
    exact ⟨by rw [key], by rw [key]⟩
  · intro e1 e2 h s as
    have key : resetPendulum R e1 (some s) = resetPendulum R e2 (some s) := by
      simp only [resetPendulum]
      rw [h]
    exact ⟨by rw [key], by rw [key]⟩
  · intro e1 e2 h s as
    have key : resetMountainCar (α := α) e1 (some s) = resetMountainCar e2 (some s) := by
      simp only [resetMountainCar]
      rw [h]
    exact ⟨by rw [key], by rw [key]⟩
  · intro e1 e2 h s as
    have key : resetMountainCarContinuous (α := α) e1 (some s) =
        resetMountainCarContinuous e2 (some s) := by
      simp only [resetMountainCarContinuous]
      rw [h]
    exact ⟨by rw [key], by rw [key]⟩
  · intro e1 e2 h s as
    have key : resetAcrobot R e1 (some s) = resetAcrobot R e2 (some s) := by
      simp only [resetAcrobot]
      rw [h]
    exact ⟨by rw [key], by rw [key]⟩
  · intro e1 e2 h s as
    have key : resetLunar (α := α) e1 (some s) = resetLunar e2 (some s) := by
      simp only [resetLunar]
      rw [h]
    exact ⟨by rw [key], by rw [key]⟩

/-- A toy instantiation of the transcendental operations over the rationals,
used to exercise the generic theorems on concrete inputs. -/
def ratOps : RealOps ℚ := ⟨fun _ => 0, fun _ => 1, 355 / 113⟩

theorem reset_seed_determinism_witness :
    ((resetCartPole (CartPoleEnv.new (α := ℚ) 3) (some 7)).2 =
        (resetCartPole (CartPoleEnv.new 99) (some 7)).2 ∧
      runCartPole ratOps (resetCartPole (CartPoleEnv.new 3) (some 7)).1 [1, 0] =
        runCartPole ratOps (resetCartPole (CartPoleEnv.new 99) (some 7)).1 [1, 0]) ∧
    ((resetPendulum ratOps (PendulumEnv.new 3) (some 7)).2 =
        (resetPendulum ratOps (PendulumEnv.new 99) (some 7)).2 ∧
      runPendulum ratOps (resetPendulum ratOps (PendulumEnv.new 3) (some 7)).1 [2] =
        runPendulum ratOps (resetPendulum ratOps (PendulumEnv.new 99) (some 7)).1 [2]) ∧
    ((resetMountainCar (MountainCarEnv.new (α := ℚ) 3) (some 7)).2 =
        (resetMountainCar (MountainCarEnv.new 99) (some 7)).2 ∧
      runMountainCar ratOps (resetMountainCar (MountainCarEnv.new 3) (some 7)).1 [2] =
        runMountainCar ratOps (resetMountainCar (MountainCarEnv.new 99) (some 7)).1 [2]) ∧
    ((resetMountainCarContinuous (MountainCarContinuousEnv.new (α := ℚ) 3) (some 7)).2 =
        (resetMountainCarContinuous (MountainCarContinuousEnv.new 99) (some 7)).2 ∧
      runMountainCarContinuous ratOps
          (resetMountainCarContinuous (MountainCarContinuousEnv.new 3) (some 7)).1 [1/2] =
        runMountainCarContinuous ratOps
          (resetMountainCarContinuous (MountainCarContinuousEnv.new 99) (some 7)).1 [1/2]) ∧
    ((resetAcrobot ratOps (AcrobotEnv.new 3) (some 7)).2 =
        (resetAcrobot ratOps (AcrobotEnv.new 99) (some 7)).2 ∧
      runAcrobot ratOps (resetAcrobot ratOps (AcrobotEnv.new 3) (some 7)).1 [0] =
        runAcrobot ratOps (resetAcrobot ratOps (AcrobotEnv.new 99) (some 7)).1 [0]) ∧
    ((resetLunar (LunarLanderEnv.new (α := ℚ) 3) (some 7)).2 =
        (resetLunar (LunarLanderEnv.new 99) (some 7)).2 ∧
      runLunar ratOps (resetLunar (LunarLanderEnv.new 3) (some 7)).1 [2] =
        runLunar ratOps (resetLunar (LunarLanderEnv.new 99) (some 7)).1 [2]) :=
  ⟨(reset_seed_determinism ratOps).1 _ _ rfl 7 [1, 0],
   (reset_seed_determinism ratOps).2.1 _ _ rfl 7 [2],
   (reset_seed_determinism ratOps).2.2.1 _ _ rfl 7 [2],
   (reset_seed_determinism ratOps).2.2.2.1 _ _ rfl 7 [1/2],
   (reset_seed_determinism ratOps).2.2.2.2.1 _ _ rfl 7 [0],
   (reset_seed_determinism ratOps).2.2.2.2.2 _ _ rfl 7 [2]⟩

theorem reset_all_getElem? {σ Obs Act : Type} (E : EnvI α σ Obs Act)
    (v : SyncVectorEnv σ) (b : Option Nat) (i : Nat) :
    ((reset_all E v b).2)[i]? =
      (v.envs[i]?).map fun e => (E.reset e (b.map fun s => s + i)).2 := by
  simp only [reset_all, List.mapIdx_eq_enum_map, List.getElem?_map, List.getElem?_enum,
    Option.map_map, Function.comp]
  cases v.envs[i]? <;> rfl

/-- C2: a SyncVectorEnv of one member, reset with a base seed and stepped
with single-element action batches, produces exactly the singleton-wrapped
trajectory of a standalone instance reset with the same seed (observations,
rewards, flags all equal); and in general reset_all with a base seed resets
member i with base seed plus i, so member 0 receives exactly the base
seed. -/
theorem vector_single_refines_standalone {σ Obs Act : Type} (E : EnvI α σ Obs Act)
    (s0 : σ) (sd : Nat) (as : List Act) :
    (reset_all E ⟨[s0]⟩ (some sd)).2 = [(E.reset s0 (some sd)).2] ∧
    runVec E (reset_all E ⟨[s0]⟩ (some sd)).1 (as.map fun a => [a]) =
      some ((runEnv E (E.reset s0 (some sd)).1 as).map fun st => [st]) ∧
    ∀ (v : SyncVectorEnv σ) (i : Nat),
      ((reset_all E v (some sd)).2)[i]? =
        (v.envs[i]?).map fun e => (E.reset e (some (sd + i))).2 := by
  have hsingle : ∀ s : σ, reset_all E ⟨[s]⟩ (some sd) =
      (⟨[(E.reset s (some sd)).1]⟩, [(E.reset s (some sd)).2]) := fun _ => rfl
  have main : ∀ st : σ, runVec E ⟨[st]⟩ (as.map fun a => [a]) =
      some ((runEnv E st as).map fun stp => [stp]) := by
    intro st
    induction as generalizing st with
    | nil => rfl
    | cons a rest ih =>
      have hstep : step_all E ⟨[st]⟩ [a] =
          some (⟨[(E.step st a).1]⟩, [(E.step st a).2]) := by
        simp [step_all]
      simp only [List.map_cons, runVec, hstep, runEnv]
      rw [ih ((E.step st a).1)]
      rfl
  refine ⟨by rw [hsingle], ?_, fun v i => reset_all_getElem? E v (some sd) i⟩
  rw [hsingle]
  exact main _

theorem zipWith_getElem?_of {σ τ γ : Type} (f : σ → τ → γ) :
    ∀ (l1 : List σ) (l2 : List τ) (i : Nat) (e : σ) (a : τ),
      l1[i]? = some e → l2[i]? = some a →
      (List.zipWith f l1 l2)[i]? = some (f e a)
  | [], _, i, _, _, h1, _ => by simp at h1
  | _ :: _, [], i, _, _, _, h2 => by simp at h2
  | x :: xs, y :: ys, 0, e, a, h1, h2 => by
    simp only [List.getElem?_cons_zero, Option.some.injEq] at h1 h2
    simp [h1, h2]
  | x :: xs, y :: ys, i + 1, e, a, h1, h2 => by
    simp only [List.getElem?_cons_succ] at h1 h2
    simpa using zipWith_getElem?_of f xs ys i e a h1 h2

/-- C9: step_all with a batch whose length equals the member count returns
exactly N transition results in index order, result i being the step of
member i with action i; with any other batch length the call is the modelled
fatal precondition violation (none, the embedding of the assert_eq panic),
never a partial batch. -/
theorem step_all_batch {σ Obs Act : Type} (E : EnvI α σ Obs Act)
    (v : SyncVectorEnv σ) (as : List Act) :
    (as.length = v.envs.length →
      ∃ w, step_all E v as = some w ∧ w.2.length = v.envs.length ∧
        ∀ (i : Nat) (e : σ) (a : Act), v.envs[i]? = some e → as[i]? = some a →
          w.2[i]? = some (E.step e a).2) ∧
    (as.length ≠ v.envs.length → step_all E v as = none) := by
  constructor
  · intro h
    refine ⟨(⟨(List.zipWith (fun e a => E.step e a) v.envs as).map Prod.fst⟩,
      (List.zipWith (fun e a => E.step e a) v.envs as).map Prod.snd), ?_, ?_, ?_⟩
    · simp [step_all, h]
    · simp [List.length_zipWith, h]
    · intro i e a h1 h2
      rw [List.getElem?_map, zipWith_getElem?_of (fun e a => E.step e a) v.envs as i e a h1 h2]
      rfl
  · intro h
    simp [step_all, h]

/-- A miniature environment over integer state mirroring the DummyEnv of the
vector-layer tests of the crate, used to exercise the vector theorems on
concrete inputs. -/
def dummyEnv : EnvI ℚ Int Int Int where
  reset := fun _ _ => (0, 0, Info.new)
  step := fun s a => (s + a,
    { observation := s + a, reward := 1.0, terminated := decide (5 ≤ s + a),
      truncated := false, info := Info.new })

theorem step_all_batch_witness :
    (∃ w, step_all dummyEnv ⟨[0, 1, 2]⟩ [1, 2, 3] = some w ∧
      w.2.length = (SyncVectorEnv.mk ([0, 1, 2] : List Int)).envs.length ∧
      ∀ (i : Nat) (e a : Int),
        (SyncVectorEnv.mk ([0, 1, 2] : List Int)).envs[i]? = some e →
        ([1, 2, 3] : List Int)[i]? = some a → w.2[i]? = some (dummyEnv.step e a).2) ∧
    step_all dummyEnv ⟨([0, 1, 2] : List Int)⟩ [1, 2] = none :=
  ⟨(step_all_batch dummyEnv ⟨[0, 1, 2]⟩ [1, 2, 3]).1 rfl,
   (step_all_batch dummyEnv ⟨[0, 1, 2]⟩ [1, 2]).2 (by decide)⟩

/-- C5: the cart-pole step always returns reward exactly 1.0 (so in
particular on every non-terminating step), and it is terminated exactly
when, after the Euler update, the absolute position exceeds 2.4 or the
absolute angle exceeds 12 degrees expressed in radians. -/
theorem cartPole_reward_termination (R : RealOps α) (e : CartPoleEnv α) (a : Nat) :
    (stepCartPole R e a).2.reward = 1.0 ∧
    ((stepCartPole R e a).2.terminated = true ↔
      (2.4 : α) < |(stepCartPole R e a).1.x| ∨
        12 * R.pi / 180 < |(stepCartPole R e a).1.theta|) := by
  refine ⟨rfl, ?_⟩
  simp only [stepCartPole, toRadians, Bool.or_eq_true, decide_eq_true_eq, lt_abs]
  have e120 : (12.0 : α) = 12 := by norm_num
  rw [e120]
  have h1 : ∀ v : α, (2.4 : α) < -v ↔ v < -(2.4 : α) := fun v => lt_neg
  have h2 : ∀ v : α, 12 * R.pi / 180 < -v ↔ v < -(12 * (R.pi / 180)) := by
    intro v
    rw [mul_div_assoc]
    exact lt_neg
  have h3 : (12 : α) * R.pi / 180 = 12 * (R.pi / 180) := mul_div_assoc 12 R.pi 180
  rw [h1, h2, h3]
  tauto

/-- Modelled after the words of C6: the discrete mountain-car update
pipeline, in order: velocity increment by action force times 0.001 minus
0.0025 times the cosine of three times the position, velocity clamped to
plus-minus 0.07, position advanced by the velocity, position clamped to the
interval from -1.2 to 0.6, velocity zeroed when pinned at the left wall
with negative velocity. -/
def mcSpecUpdate (R : RealOps α) (pos vel : α) (action : Nat) : α × α :=
  let af : α := if action = 0 then -(1.0 : α) else if action = 1 then 0.0 else 1.0
  let v := vel + (af * 0.001 - 0.0025 * R.cos (3.0 * pos))
  let vc := max (-(0.07 : α)) (min (0.07 : α) v)
  let p := pos + vc
  let pc := max (-(1.2 : α)) (min (0.6 : α) p)
  let vz := if pc ≤ -(1.2 : α) ∧ vc < 0 then (0 : α) else vc
  (pc, vz)

theorem if_clamp_eq_max_min {lo hi v : α} (h : lo ≤ hi) :
    (if (if hi < v then hi else v) < lo then lo else if hi < v then hi else v) =
      max lo (min hi v) := by
  rcases le_or_lt v hi with h1 | h1
  · rw [if_neg (not_lt.mpr h1), min_eq_right h1]
    rcases le_or_lt lo v with h2 | h2
    · rw [if_neg (not_lt.mpr h2), max_eq_right h2]
    · rw [if_pos h2, max_eq_left h2.le]
  · rw [if_pos h1, min_eq_left h1.le, if_neg (not_lt.mpr h), max_eq_right h]

/-- C6: the discrete mountain-car step performs exactly the update pipeline
of the specification in the stated order, is terminated exactly when the
resulting position reaches 0.5, and returns a reward that is never
positive. -/
theorem mountainCar_step_spec (R : RealOps α) (e : MountainCarEnv α) (a : Nat) :
    ((stepMountainCar R e a).1.position, (stepMountainCar R e a).1.velocity) =
      mcSpecUpdate R e.position e.velocity a ∧
    ((stepMountainCar R e a).2.terminated = true ↔
      (0.5 : α) ≤ (stepMountainCar R e a).1.position) ∧
    (stepMountainCar R e a).2.reward ≤ 0 := by
  refine ⟨?_, ?_, ?_⟩
  · have haf : mountainCarForce (α := α) a =
        (if a = 0 then -(1.0 : α) else if a = 1 then 0.0 else 1.0) := by
      rcases a with _ | _ | n <;> simp [mountainCarForce]
    simp only [stepMountainCar, mcSpecUpdate, haf]
    rw [if_clamp_eq_max_min (by norm_num), if_clamp_eq_max_min (by norm_num)]
  · simp only [stepMountainCar, decide_eq_true_eq]
  · simp only [stepMountainCar]
    split_ifs <;> norm_num

/-- C10: after any lunar-lander step whose integration phase brings the
altitude to or below the ground, the returned observation and state have
altitude 0 and vertical velocity 0, and the stepped state satisfies the
crash predicate exactly when the tilt condition or the horizontal
out-of-bounds condition holds: the vertical-speed crash condition is
unsatisfiable at touchdown. -/
theorem lunar_touchdown (R : RealOps α) (s : LunarLanderEnv α) (a : Nat)
    (h : (lunarIntegrate R s a).y ≤ 0) :
    (stepLunar R s a).1.y = 0 ∧ (stepLunar R s a).1.vy = 0 ∧
    (lunarCrashed (stepLunar R s a).1 = true ↔
      (0.4 : α) ≤ |(stepLunar R s a).1.angle| ∨
        (1.2 : α) < |(stepLunar R s a).1.x|) := by
  have hc : lunarCollide (lunarIntegrate R s a) =
      { lunarIntegrate R s a with
        left_contact := decide (|(lunarIntegrate R s a).x - 0.05| ≤ 0.2),
        right_contact := decide (|(lunarIntegrate R s a).x + 0.05| ≤ 0.2),
        y := 0, vy := 0 } := by
    rw [lunarCollide, if_pos h]
  simp only [stepLunar, hc]
  refine ⟨trivial, trivial, ?_⟩
  simp only [lunarCrashed, Bool.or_eq_true, Bool.and_eq_true, decide_eq_true_eq,
    abs_zero]
  constructor
  · rintro (((⟨_, hb | hc⟩ | hd) | he) | hf)
    · exact absurd hb (by norm_num)
    · exact Or.inl hc
    · exact Or.inr hd
    · exact absurd he (by norm_num)
    · exact absurd hf (by norm_num)
  · rintro (h4 | hx)
    · exact Or.inl (Or.inl (Or.inl ⟨le_refl 0, Or.inr h4⟩))
    · exact Or.inl (Or.inl (Or.inr hx))

theorem multiBinarySampleGo_length (k : Nat) (r : RngStream) :
    (multiBinarySampleGo k r).1.length = k := by
  induction k generalizing r with
  | zero => rfl
  | succ k ih => simp [multiBinarySampleGo, ih]

theorem multiBinarySampleGo_mem (k : Nat) (r : RngStream) :
    ∀ v ∈ (multiBinarySampleGo k r).1, v = 0 ∨ v = 1 := by
  induction k generalizing r with
  | zero => intro v hv; simp [multiBinarySampleGo] at hv
  | succ k ih =>
    intro v hv
    simp only [multiBinarySampleGo, List.mem_cons] at hv
    rcases hv with h | h
    · rw [h]; exact Nat.mod_two_eq_zero_or_one _
    · exact ih _ v h

theorem multiDiscreteSampleGo_length :
    ∀ (ns : List Nat) (r : RngStream),
      (multiDiscreteSampleGo ns r).1.length = ns.length
  | [], _ => rfl
  | n :: rest, r => by
    by_cases h : n = 1 <;>
      simp [multiDiscreteSampleGo, h, multiDiscreteSampleGo_length rest]

theorem multiDiscreteSampleGo_lt :
    ∀ (ns : List Nat) (r : RngStream), (∀ n ∈ ns, 0 < n) →
      ∀ p ∈ (multiDiscreteSampleGo ns r).1.zip ns, p.1 < p.2
  | [], _, _ => by intro p hp; simp at hp
  | n :: rest, r, hpos => by
    intro p hp
    by_cases h : n = 1
    · rw [h] at hp
      have hred : (multiDiscreteSampleGo (1 :: rest) r).1 =
          0 :: (multiDiscreteSampleGo rest r).1 := rfl
      rw [hred, List.zip_cons_cons] at hp
      rcases List.mem_cons.mp hp with h1 | h1
      · rw [h1]; exact Nat.zero_lt_one
      · exact multiDiscreteSampleGo_lt rest r
          (fun x hx => hpos x (List.mem_cons_of_mem n hx)) p h1
    · have hred : (multiDiscreteSampleGo (n :: rest) r).1 =
          (sampleBelow n r).1 ::
            (multiDiscreteSampleGo rest (sampleBelow n r).2).1 := by
        simp [multiDiscreteSampleGo, h]
      rw [hred, List.zip_cons_cons] at hp
      rcases List.mem_cons.mp hp with h1 | h1
      · rw [h1]
        exact sampleBelow_lt (hpos n (List.mem_cons_self n rest)) r
      · exact multiDiscreteSampleGo_lt rest _
          (fun x hx => hpos x (List.mem_cons_of_mem n hx)) p h1

theorem boxSampleGo_length :
    ∀ (bs : List (α × α)) (r : RngStream), (boxSampleGo bs r).1.length = bs.length
  | [], _ => rfl
  | b :: rest, r => by simp [boxSampleGo, boxSampleGo_length rest]

theorem boxSampleGo_mem :
    ∀ (bs : List (α × α)) (r : RngStream), (∀ b ∈ bs, b.1 ≤ b.2) →
      ∀ p ∈ bs.zip (boxSampleGo bs r).1, p.1.1 ≤ p.2 ∧ p.2 ≤ p.1.2
  | [], _, _ => by intro p hp; simp at hp
  | b :: rest, r, hb => by
    intro p hp
    simp only [boxSampleGo, List.zip_cons_cons, List.mem_cons] at hp
    rcases hp with h1 | h1
    · rw [h1]
      exact sampleUniform_mem (hb b (List.mem_cons_self b rest)) r
    · exact boxSampleGo_mem rest _
        (fun x hx => hb x (List.mem_cons_of_mem b hx)) p h1

/-- C7: for every validly constructed space, every sample satisfies
contains: a Discrete sample is below n, a MultiBinary sample is a length-n
bit vector, a MultiDiscrete sample has one entry per dimension each below
its bound, and a Box sample lies within the closed per-dimension bounds;
moreover contains is exactly the membership predicate, so it rejects
wrong-length vectors and out-of-range values. -/
theorem spaces_sample_contains (d : Discrete) (m : MultiBinary)
    (md : MultiDiscrete) (b : BoxSpace α) (r : RngStream) :
    (0 < d.n → d.contains (d.sample r).1 = true) ∧
    (0 < m.n → (m.sample r).1.length = m.n ∧ m.contains (m.sample r).1 = true) ∧
    (md.nvec ≠ [] → (∀ n ∈ md.nvec, 0 < n) →
      (md.sample r).1.length = md.nvec.length ∧
        md.contains (md.sample r).1 = true) ∧
    (b.low.length = b.high.length → (∀ p ∈ b.low.zip b.high, p.1 ≤ p.2) →
      (boxSample b r).1.length = b.low.length ∧
        boxContains b (boxSample b r).1 = true) ∧
    (∀ e : Nat, d.contains e = true ↔ e < d.n) ∧
    (∀ e : List Nat, m.contains e = true ↔
      e.length = m.n ∧ ∀ v ∈ e, v = 0 ∨ v = 1) ∧
    (∀ e : List Nat, md.contains e = true ↔
      e.length = md.nvec.length ∧ ∀ p ∈ e.zip md.nvec, p.1 < p.2) ∧
    (∀ e : List α, boxContains b e = true ↔
      ∀ p ∈ (b.low.zip b.high).zip e, p.1.1 ≤ p.2 ∧ p.2 ≤ p.1.2) := by
  have hdc : ∀ e : Nat, d.contains e = true ↔ e < d.n := by
    intro e; simp [Discrete.contains]
  have hmc : ∀ e : List Nat, m.contains e = true ↔
      e.length = m.n ∧ ∀ v ∈ e, v = 0 ∨ v = 1 := by
    intro e
    simp [MultiBinary.contains, List.all_eq_true, Decidable.or_iff_not_imp_left]
  have hmdc : ∀ e : List Nat, md.contains e = true ↔
      e.length = md.nvec.length ∧ ∀ p ∈ e.zip md.nvec, p.1 < p.2 := by
    intro e; simp [MultiDiscrete.contains, List.all_eq_true]
  have hbc : ∀ e : List α, boxContains b e = true ↔
      ∀ p ∈ (b.low.zip b.high).zip e, p.1.1 ≤ p.2 ∧ p.2 ≤ p.1.2 := by
    intro e; simp [boxContains, List.all_eq_true]
  refine ⟨?_, ?_, ?_, ?_, hdc, hmc, hmdc, hbc⟩
  · intro hn
    rw [hdc]
    by_cases h1 : d.n = 1
    · simp [Discrete.sample, h1]
    · simp only [Discrete.sample, if_neg h1]
      exact sampleBelow_lt hn r
  · intro _
    refine ⟨multiBinarySampleGo_length m.n r, ?_⟩
    rw [hmc]
    exact ⟨multiBinarySampleGo_length m.n r, multiBinarySampleGo_mem m.n r⟩
  · intro _ hpos
    refine ⟨multiDiscreteSampleGo_length md.nvec r, ?_⟩
    rw [hmdc]
    exact ⟨multiDiscreteSampleGo_length md.nvec r,
      multiDiscreteSampleGo_lt md.nvec r hpos⟩
  · intro hlen hb
    have hl : (boxSample b r).1.length = b.low.length := by
      rw [boxSample, boxSampleGo_length, List.length_zip, hlen, min_self]
    refine ⟨hl, ?_⟩
    rw [hbc]
    exact boxSampleGo_mem (b.low.zip b.high) r hb

theorem spaces_sample_contains_witness :
    ((0 : Nat) < 5 ∧
      Discrete.contains ⟨5⟩ ((Discrete.mk 5).sample ⟨42, 0⟩).1 = true) ∧
    MultiBinary.contains ⟨3⟩ ((MultiBinary.mk 3).sample ⟨42, 0⟩).1 = true ∧
    MultiDiscrete.contains ⟨[1, 4]⟩ ((MultiDiscrete.mk [1, 4]).sample ⟨42, 0⟩).1 = true ∧
    boxContains (BoxSpace.mk [(0 : ℚ), -1] [1, 1])
      (boxSample (BoxSpace.mk [(0 : ℚ), -1] [1, 1]) ⟨42, 0⟩).1 = true :=
  ⟨⟨by decide,
    (spaces_sample_contains ⟨5⟩ ⟨3⟩ ⟨[1, 4]⟩ (BoxSpace.mk [(0 : ℚ), -1] [1, 1])
      ⟨42, 0⟩).1 (by decide)⟩,
   ((spaces_sample_contains ⟨5⟩ ⟨3⟩ ⟨[1, 4]⟩ (BoxSpace.mk [(0 : ℚ), -1] [1, 1])
      ⟨42, 0⟩).2.1 (by decide)).2,
   ((spaces_sample_contains ⟨5⟩ ⟨3⟩ ⟨[1, 4]⟩ (BoxSpace.mk [(0 : ℚ), -1] [1, 1])
      ⟨42, 0⟩).2.2.1 (by decide) (by decide)).2,
   ((spaces_sample_contains ⟨5⟩ ⟨3⟩ ⟨[1, 4]⟩ (BoxSpace.mk [(0 : ℚ), -1] [1, 1])
      ⟨42, 0⟩).2.2.2.1 (by decide) (by decide)).2⟩

/-- A concrete rational lunar-lander state at ground level, used to exercise
the touchdown theorem on an input whose integration phase ends at or below
the ground. -/
def lunarGroundState : LunarLanderEnv ℚ :=
  ⟨0, 0, 0, 0, 0, 0, false, false, 0, 1000, ⟨0, 0⟩⟩

theorem lunar_touchdown_witness :
    (lunarIntegrate ratOps lunarGroundState 0).y ≤ 0 ∧
    ((stepLunar ratOps lunarGroundState 0).1.y = 0 ∧
     (stepLunar ratOps lunarGroundState 0).1.vy = 0 ∧
     (lunarCrashed (stepLunar ratOps lunarGroundState 0).1 = true ↔
       (0.4 : ℚ) ≤ |(stepLunar ratOps lunarGroundState 0).1.angle| ∨
         (1.2 : ℚ) < |(stepLunar ratOps lunarGroundState 0).1.x|)) := by
  have hy : (lunarIntegrate ratOps lunarGroundState 0).y ≤ 0 := by
    norm_num [lunarIntegrate, lunarApplyAction, lunarGroundState]
  exact ⟨hy, lunar_touchdown ratOps lunarGroundState 0 hy⟩

/-! ### Out-of-range actions (C4) and angle ranges (C3) -/

/-- C4 (amended): no environment with a discrete action space rejects an
out-of-range action: the pendulum, the discrete mountain car and the acrobot
treat every action index of 2 or more as the highest valid action 2, and the
lunar lander caps every action index of 3 or more to its highest valid
action 3; the cart-pole, however, treats every action other than 1 as the
push-left action 0, not as its highest valid action. -/
theorem out_of_range_actions (R : RealOps α) (cp : CartPoleEnv α)
    (pe : PendulumEnv α) (mc : MountainCarEnv α) (ac : AcrobotEnv α)
    (ll : LunarLanderEnv α) :
    (∀ a, 2 ≤ a → stepPendulum R pe a = stepPendulum R pe 2) ∧
    (∀ a, 2 ≤ a → stepMountainCar R mc a = stepMountainCar R mc 2) ∧
    (∀ a, 2 ≤ a → stepAcrobot R ac a = stepAcrobot R ac 2) ∧
    (∀ a, 3 ≤ a → stepLunar R ll a = stepLunar R ll 3) ∧
    (∀ a, a ≠ 1 → stepCartPole R cp a = stepCartPole R cp 0) := by
  refine ⟨?_, ?_, ?_, ?_, ?_⟩
  · intro a ha
    obtain ⟨k, rfl⟩ : ∃ k, a = k + 2 := ⟨a - 2, by omega⟩
    rfl
  · intro a ha
    obtain ⟨k, rfl⟩ : ∃ k, a = k + 2 := ⟨a - 2, by omega⟩
    rfl
  · intro a ha
    obtain ⟨k, rfl⟩ : ∃ k, a = k + 2 := ⟨a - 2, by omega⟩
    rfl
  · intro a ha
    obtain ⟨k, rfl⟩ : ∃ k, a = k + 3 := ⟨a - 3, by omega⟩
    have hm : min (k + 3) 3 = 3 := by omega
    simp only [stepLunar, lunarIntegrate, hm, Nat.min_self]
  · intro a ha
    simp only [stepCartPole, cartPoleForce, if_neg ha,
      if_neg (by decide : ¬((0 : Nat) = 1))]

theorem out_of_range_actions_witness :
    stepPendulum ratOps (PendulumEnv.new 0) 5 = stepPendulum ratOps (PendulumEnv.new 0) 2 ∧
    stepMountainCar ratOps (MountainCarEnv.new 0) 5 =
      stepMountainCar ratOps (MountainCarEnv.new 0) 2 ∧
    stepAcrobot ratOps (AcrobotEnv.new 0) 5 = stepAcrobot ratOps (AcrobotEnv.new 0) 2 ∧
    stepLunar ratOps (LunarLanderEnv.new 0) 7 = stepLunar ratOps (LunarLanderEnv.new 0) 3 ∧
    stepCartPole ratOps (CartPoleEnv.new 0) 3 = stepCartPole ratOps (CartPoleEnv.new 0) 0 :=
  ⟨(out_of_range_actions ratOps (CartPoleEnv.new 0) (PendulumEnv.new 0)
      (MountainCarEnv.new 0) (AcrobotEnv.new 0) (LunarLanderEnv.new 0)).1 5 (by decide),
   (out_of_range_actions ratOps (CartPoleEnv.new 0) (PendulumEnv.new 0)
      (MountainCarEnv.new 0) (AcrobotEnv.new 0) (LunarLanderEnv.new 0)).2.1 5 (by decide),
   (out_of_range_actions ratOps (CartPoleEnv.new 0) (PendulumEnv.new 0)
      (MountainCarEnv.new 0) (AcrobotEnv.new 0) (LunarLanderEnv.new 0)).2.2.1 5 (by decide),
   (out_of_range_actions ratOps (CartPoleEnv.new 0) (PendulumEnv.new 0)
      (MountainCarEnv.new 0) (AcrobotEnv.new 0) (LunarLanderEnv.new 0)).2.2.2.1 7 (by decide),
   (out_of_range_actions ratOps (CartPoleEnv.new 0) (PendulumEnv.new 0)
      (MountainCarEnv.new 0) (AcrobotEnv.new 0) (LunarLanderEnv.new 0)).2.2.2.2 3 (by decide)⟩

/-- C4 counterexample: at the zero cart-pole state, stepping with the
out-of-range action 2 does not behave as if the highest valid action 1 had
been supplied: the two returned observations differ, because action 2 is
treated as push left. -/
theorem out_of_range_actions_counterexample :
    (stepCartPole (⟨Real.sin, Real.cos, Real.pi⟩ : RealOps ℝ)
        ⟨0, 0, 0, 0, 0, 500, ⟨0, 0⟩⟩ 2).2.observation ≠
      (stepCartPole (⟨Real.sin, Real.cos, Real.pi⟩ : RealOps ℝ)
        ⟨0, 0, 0, 0, 0, 500, ⟨0, 0⟩⟩ 1).2.observation := by
  have h2 : (stepCartPole (⟨Real.sin, Real.cos, Real.pi⟩ : RealOps ℝ)
      ⟨0, 0, 0, 0, 0, 500, ⟨0, 0⟩⟩ 2).2.observation.2.1 = -(8 / 41 : ℝ) := by
    simp only [stepCartPole, cartPoleForce]
    norm_num [Real.cos_zero, Real.sin_zero]
  have h1 : (stepCartPole (⟨Real.sin, Real.cos, Real.pi⟩ : RealOps ℝ)
      ⟨0, 0, 0, 0, 0, 500, ⟨0, 0⟩⟩ 1).2.observation.2.1 = (8 / 41 : ℝ) := by
    simp only [stepCartPole, cartPoleForce]
    norm_num [Real.cos_zero, Real.sin_zero]
  intro hEq
  rw [hEq, h1] at h2
  norm_num at h2

/-- C3 (amended): after every pendulum step and every acrobot step, the
wrapped angles lie in the half-open interval from -pi inclusive to pi
exclusive: at least -pi and strictly below pi. -/
theorem step_angle_range (R : RealOps α) (hpi : 0 < R.pi)
    (pe : PendulumEnv α) (ac : AcrobotEnv α) (a b : Nat) :
    (-R.pi ≤ (stepPendulum R pe a).1.theta ∧ (stepPendulum R pe a).1.theta < R.pi) ∧
    (-R.pi ≤ (stepAcrobot R ac b).1.th1 ∧ (stepAcrobot R ac b).1.th1 < R.pi) ∧
    (-R.pi ≤ (stepAcrobot R ac b).1.th2 ∧ (stepAcrobot R ac b).1.th2 < R.pi) :=
  ⟨angle_normalize_mem R hpi _, angle_normalize_mem R hpi _,
   angle_normalize_mem R hpi _⟩

theorem step_angle_range_witness :
    (0 : ℚ) < ratOps.pi ∧
    ((-ratOps.pi ≤ (stepPendulum ratOps (PendulumEnv.new 0) 0).1.theta ∧
        (stepPendulum ratOps (PendulumEnv.new 0) 0).1.theta < ratOps.pi) ∧
     (-ratOps.pi ≤ (stepAcrobot ratOps (AcrobotEnv.new 0) 0).1.th1 ∧
        (stepAcrobot ratOps (AcrobotEnv.new 0) 0).1.th1 < ratOps.pi) ∧
     (-ratOps.pi ≤ (stepAcrobot ratOps (AcrobotEnv.new 0) 0).1.th2 ∧
        (stepAcrobot ratOps (AcrobotEnv.new 0) 0).1.th2 < ratOps.pi)) :=
  ⟨by norm_num [ratOps],
   step_angle_range ratOps (by norm_num [ratOps]) (PendulumEnv.new 0)
     (AcrobotEnv.new 0) 0 0⟩

theorem angle_normalize_neg_pi (R : RealOps α) (hpi : 0 < R.pi) :
    angle_normalize R (-R.pi) = -R.pi := by
  have h2 : (2 * R.pi) ≠ 0 := by positivity
  have hr0 : rrem (0 : α) (2 * R.pi) = 0 := by
    simp [rrem, rtrunc]
  have hr2 : rrem (2 * R.pi) (2 * R.pi) = 0 := by
    rw [rrem, div_self h2, rtrunc]
    norm_num
  rw [angle_normalize, neg_add_cancel, hr0, zero_add, hr2, zero_sub]

/-- C3 counterexample: from the pendulum state with angle -pi + 2/5 and
angular velocity -8, a zero-torque step (action 1) yields the wrapped angle
exactly -pi, which is not strictly greater than -pi: the claimed interval,
open at -pi and closed at pi, is wrong at its lower end. -/
theorem step_angle_range_counterexample :
    (stepPendulum (⟨Real.sin, Real.cos, Real.pi⟩ : RealOps ℝ)
        ⟨-Real.pi + 2 / 5, -8, 200, 0, ⟨0, 0⟩⟩ 1).1.theta = -Real.pi ∧
    ¬(-Real.pi <
      (stepPendulum (⟨Real.sin, Real.cos, Real.pi⟩ : RealOps ℝ)
        ⟨-Real.pi + 2 / 5, -8, 200, 0, ⟨0, 0⟩⟩ 1).1.theta) := by
  have hsin : Real.sin (-Real.pi + 2 / 5) < 0 := by
    have h1 : -Real.pi + 2 / 5 = 2 / 5 - Real.pi := by ring
    rw [h1, Real.sin_sub_pi]
    have hp : 0 < Real.sin (2 / 5 : ℝ) :=
      Real.sin_pos_of_pos_of_lt_pi (by norm_num)
        (by linarith [Real.pi_gt_three])
    linarith
  have key : (stepPendulum (⟨Real.sin, Real.cos, Real.pi⟩ : RealOps ℝ)
      ⟨-Real.pi + 2 / 5, -8, 200, 0, ⟨0, 0⟩⟩ 1).1.theta = -Real.pi := by
    simp only [stepPendulum, pendulumTorque]
    split_ifs with h1 h2 h3
    · exfalso; linarith [hsin]
    · exfalso; linarith [hsin]
    · rw [show -Real.pi + 2 / 5 + -(8.0 : ℝ) * 0.05 = -Real.pi by
        rw [show -(8.0 : ℝ) * 0.05 = -(2 / 5) by norm_num]; ring]
      exact angle_normalize_neg_pi _ Real.pi_pos
    · exfalso; linarith [hsin]
  exact ⟨key, by rw [key]; exact lt_irrefl _⟩

end Gym
